import Mathlib

/-!
# Electron IPC template: bridge (preload.js) and host handlers (main.js)

A shallow embedding of the three-function bridge that preload.js exposes to the
renderer, of the transport registry it talks to (ipcRenderer, an event emitter),
and of the host-side handlers and timer callback of main.js.

Modelling conventions.

* Channel names are strings (the JSDoc of preload.js types them so).
* Payloads are values of the structured-clone fragment `JSValue`.
* A JavaScript closure is identified by a natural number allocated when the
  closure is created; two closures are the same function iff the numbers agree.
* Renderer callbacks are opaque: calling one is recorded in a trace, and
  whether the call throws is chosen by the renderer, call by call
  (`CallbackOutcome`). A throw aborts the emit it happens in.
* Time on the host is a logical clock in milliseconds; timers run when due.
* The raw transport calls `ipcRenderer.send` and `ipcRenderer.invoke` are a
  black box (`Transport`); each call made to them is recorded in the state.
-/

namespace IpcTemplate

/-! ## JavaScript values -/

/-- A thrown JavaScript error object: constructor name and message. -/
structure JSError where
  name : String
  message : String
deriving DecidableEq, Repr

/-- The fragment of JavaScript values that crosses the process boundary
(structured clone): primitives, arrays and plain objects. A Number is
identified with its ECMAScript string rendering. -/
inductive JSValue where
  | undefined
  | null
  | bool (b : Bool)
  | num (text : String)
  | str (s : String)
  | arr (elems : List JSValue)
  | obj (props : List (String × JSValue))

mutual
/-- ECMAScript ToString, as applied by a template literal to a substitution.
A cloned plain object has no callable own property, so an own `toString`
property hides `Object.prototype.toString`; `Object.prototype.valueOf` (or a
non-callable own `valueOf`) yields no primitive and the conversion throws. -/
def toJSString : JSValue → Except JSError String
  | .undefined => .ok "undefined"
  | .null => .ok "null"
  | .bool b => .ok (if b then "true" else "false")
  | .num t => .ok t
  | .str s => .ok s
  | .arr xs => joinElems xs
  | .obj ps =>
    if ps.any (fun p => p.1 == "toString") then
      .error ⟨"TypeError", "Cannot convert object to primitive value"⟩
    else .ok "[object Object]"
/-- The body of `Array.prototype.join` with separator `,`. -/
def joinElems : List JSValue → Except JSError String
  | [] => .ok ""
  | [x] => elemString x
  | x :: y :: rest =>
    match elemString x, joinElems (y :: rest) with
    | .ok a, .ok b => .ok (a ++ "," ++ b)
    | .error e, _ => .error e
    | _, .error e => .error e
/-- One element inside `join`: undefined and null render as the empty string. -/
def elemString : JSValue → Except JSError String
  | .undefined => .ok ""
  | .null => .ok ""
  | v => toJSString v
end

/-- The state of a promise as an observer sees it. -/
inductive PromiseState where
  | pending
  | fulfilled (value : JSValue)
  | rejected (reason : JSError)

/-- How a synchronous call completes: a returned value or a thrown error. -/
abbrev Completion := Except JSError JSValue

/-! ## preload.js -/

/-- The event object the transport passes first to every listener; its
`sender` exposes IPC methods. -/
structure IpcRendererEvent where
  senderId : Nat
deriving DecidableEq, Repr

/-- An argument in a listener or callback call: the event object or data. -/
inductive JSArg where
  | event (e : IpcRendererEvent)
  | data (v : JSValue)

/-- A call recorded by the transport spy. -/
structure Outbound where
  channel : String
  data : JSValue

/-- One entry of the ipcRenderer listener registry: the `subscription`
closure of preload.js line 58 (identified by its allocation number) together
with the renderer callback it captured, registered on `channel`. -/
structure Listener where
  channel : String
  subscription : Nat
  callback : Nat
deriving DecidableEq, Repr

/-- One call of a renderer callback, tagged with the subscription closure
that made it. -/
structure Invocation where
  subscription : Nat
  callback : Nat
  args : List JSArg

/-- The raw transport, a black box: whether `ipcRenderer.send` throws on a
call, and the promise `ipcRenderer.invoke` returns for a call. -/
structure Transport where
  sendThrows : String → JSValue → Option JSError
  invokeResult : String → JSValue → PromiseState

/-- Everything the bridge can read or touch. The three arrays of preload.js
lines 12-14 are part of the state, so that their immutability is proved rather
than assumed. -/
structure BridgeState where
  validSendChannels : List String
  validReceiveChannels : List String
  validInvokeChannels : List String
  sent : List Outbound
  invoked : List Outbound
  listeners : List Listener
  nextClosure : Nat
  errorLog : List String
  called : List Invocation

/-- The state when preload.js has finished loading. -/
def init : BridgeState where
  validSendChannels := ["to-main"]
  validReceiveChannels := ["from-main"]
  validInvokeChannels := ["get-data"]
  sent := []
  invoked := []
  listeners := []
  nextClosure := 0
  errorLog := []
  called := []

/-- The function `send` of preload.js lines 23-30. -/
def send (t : Transport) (s : BridgeState) (channel : String) (data : JSValue) :
    BridgeState × Completion :=
  if channel ∈ s.validSendChannels then
    let s1 := { s with sent := s.sent ++ [⟨channel, data⟩] }
    match t.sendThrows channel data with
    | none => (s1, .ok .undefined)
    | some e => (s1, .error e)
  else
    ({ s with errorLog := s.errorLog ++ ["Unauthorized send attempt to channel: " ++ channel] },
      .ok .undefined)

/-- The function `invoke` of preload.js lines 38-46. -/
def invoke (t : Transport) (s : BridgeState) (channel : String) (data : JSValue) :
    BridgeState × PromiseState :=
  if channel ∈ s.validInvokeChannels then
    ({ s with invoked := s.invoked ++ [⟨channel, data⟩] }, t.invokeResult channel data)
  else
    ({ s with errorLog := s.errorLog ++ ["Unauthorized invoke attempt to channel: " ++ channel] },
      .rejected ⟨"Error", "Unauthorized invoke to: " ++ channel⟩)

/-- The two closures `receive` can return. -/
inductive Disposer where
  | remove (channel : String) (subscription : Nat)
  | noop
deriving DecidableEq, Repr

/-- The method `removeListener` of the event emitter: drops the most recently
added entry that is this function on this channel, if there is one. -/
def removeListener (ls : List Listener) (channel : String) (subscription : Nat) :
    List Listener :=
  (ls.reverse.eraseP (fun l => l.channel == channel && l.subscription == subscription)).reverse

/-- The function `receive` of preload.js lines 54-69. -/
def receive (s : BridgeState) (channel : String) (callback : Nat) :
    BridgeState × Disposer :=
  if channel ∈ s.validReceiveChannels then
    ({ s with
        listeners := s.listeners ++ [⟨channel, s.nextClosure, callback⟩]
        nextClosure := s.nextClosure + 1 },
      .remove channel s.nextClosure)
  else
    ({ s with errorLog := s.errorLog ++ ["Unauthorized receive attempt on channel: " ++ channel] },
      .noop)

/-- Calling a disposer: the bodies of preload.js lines 62-64 and line 67. -/
def Disposer.call (d : Disposer) (s : BridgeState) : BridgeState :=
  match d with
  | .remove channel subscription =>
    { s with listeners := removeListener s.listeners channel subscription }
  | .noop => s

/-- The closure of preload.js line 58, called with the argument list the
emitter hands it: the first argument is dropped, the rest go to the callback. -/
def subscriptionCall (l : Listener) (args : List JSArg) : Invocation :=
  ⟨l.subscription, l.callback, args.tail⟩

/-- Whether a given call of a renderer callback throws, and what it throws.
The closure of preload.js line 58 has no try/catch, so what the callback
throws leaves the closure too. -/
abbrev CallbackOutcome := Invocation → Option JSError

/-- The callback calls one `emit` on `channel` has lined up: one for each
listener of the channel, in registration order. -/
def dispatched (s : BridgeState) (channel : String) (args : List JSArg) : List Invocation :=
  (s.listeners.filter (fun l => l.channel == channel)).map (fun l => subscriptionCall l args)

/-- The loop of the emitter: the listeners are called in order, and the first
call that throws ends the loop; the listeners after it are not called. -/
def callsUntilThrow (outcome : CallbackOutcome) : List Invocation → List Invocation
  | [] => []
  | i :: rest =>
    match outcome i with
    | none => i :: callsUntilThrow outcome rest
    | some _ => [i]

/-- The callback calls one `emit` on `channel` really makes. -/
def emitted (s : BridgeState) (channel : String) (args : List JSArg)
    (outcome : CallbackOutcome) : List Invocation :=
  callsUntilThrow outcome (dispatched s channel args)

/-- The error one `emit` on `channel` throws to the transport, if any. -/
def emitThrown (s : BridgeState) (channel : String) (args : List JSArg)
    (outcome : CallbackOutcome) : Option JSError :=
  (dispatched s channel args).findSome? outcome

/-- The transport delivers a message: `emit(channel, event, ...payload)`. -/
def deliver (s : BridgeState) (channel : String) (e : IpcRendererEvent)
    (payload : List JSValue) (outcome : CallbackOutcome) : BridgeState :=
  { s with called := s.called ++ emitted s channel (.event e :: payload.map .data) outcome }

/-- The callback `callback` throws on every call; every other one returns. -/
def onlyThrows (callback : Nat) : CallbackOutcome :=
  fun i => if i.callback = callback then some ⟨"Error", "callback failed"⟩ else none

/-- The calls a subscription closure has made so far. -/
def invocationsOf (subscription : Nat) (s : BridgeState) : List Invocation :=
  s.called.filter (fun i => i.subscription == subscription)

/-! ## The renderer driving the bridge -/

/-- What can happen to the bridge: the renderer calls one of the three exposed
functions or a disposer it was handed earlier, or the transport delivers. -/
inductive Op where
  | send (channel : String) (data : JSValue)
  | invoke (channel : String) (data : JSValue)
  | receive (channel : String) (callback : Nat)
  | dispose (k : Nat)
  | deliver (channel : String) (e : IpcRendererEvent) (payload : List JSValue)
      (outcome : CallbackOutcome)

/-- The bridge together with the disposers handed to the renderer so far. -/
structure World where
  bridge : BridgeState
  disposers : List Disposer

/-- The world when preload.js has finished loading. -/
def World.start : World := ⟨init, []⟩

/-- One operation. -/
def step (t : Transport) (w : World) : Op → World
  | .send channel data => { w with bridge := (send t w.bridge channel data).1 }
  | .invoke channel data => { w with bridge := (invoke t w.bridge channel data).1 }
  | .receive channel callback =>
    ⟨(receive w.bridge channel callback).1, w.disposers ++ [(receive w.bridge channel callback).2]⟩
  | .dispose k =>
    match w.disposers[k]? with
    | some d => { w with bridge := d.call w.bridge }
    | none => w
  | .deliver channel e payload outcome =>
    { w with bridge := deliver w.bridge channel e payload outcome }

/-- A sequence of operations, first to last. -/
def run (t : Transport) (ops : List Op) (w : World) : World :=
  ops.foldl (step t) w

/-- A transport whose `send` always throws and whose `invoke` always fulfils:
the worst case for a check that the bridge never reaches it. -/
def hostileTransport : Transport where
  sendThrows := fun _ _ => some ⟨"Error", "An object could not be cloned."⟩
  invokeResult := fun _ _ => .fulfilled .null

/-- The world right after the renderer calls a disposer it holds. -/
def afterCall (d : Disposer) (w : World) : World :=
  { w with bridge := d.call w.bridge }

/-! ## main.js -/

/-- The event object a host-side listener or handler receives first; its
`sender` is the web contents the message came from. -/
structure IpcMainEvent where
  senderId : Nat
deriving DecidableEq, Repr

/-- What the host process can observe of itself: the console, the messages it
has pushed towards a renderer (by `webContents.send`, `event.reply` or
`event.sender.send`), and whether the window of `createWindow` is gone. -/
structure HostState where
  consoleLog : List (List JSValue)
  pushed : List Outbound
  windowDestroyed : Bool

/-- The listener registered on `to-main`, main.js lines 31-38. -/
def toMainListener (s : HostState) (_event : IpcMainEvent) (data : JSValue) :
    HostState × Completion :=
  ({ s with consoleLog := s.consoleLog ++ [[.str "Received in main process:", data]] },
    .ok .undefined)

/-- The function `someAsyncOperation` of main.js lines 71-77, observed once
the event loop has run every timer due `elapsed` milliseconds after the call:
the promise it returned, and the error (if any) thrown out of its timer
callback. The executor is handed `resolve` only, and the template literal is
evaluated inside the timer callback, outside any promise job. -/
def someAsyncOperation (arg : JSValue) (elapsed : Nat) : PromiseState × Option JSError :=
  if elapsed < 1000 then (.pending, none)
  else
    match toJSString arg with
    | .ok text => (.fulfilled (.str ("Processed: " ++ text)), none)
    | .error e => (.pending, some e)

/-- The handler registered on `get-data`, main.js lines 42-54, observed
`elapsed` milliseconds after it was called: the host state, the promise the
async function returned, and the error (if any) left uncaught in the host. -/
def getDataHandler (s : HostState) (_event : IpcMainEvent) (arg : JSValue) (elapsed : Nat) :
    HostState × PromiseState × Option JSError :=
  let s1 := { s with consoleLog := s.consoleLog ++ [[.str "Data requested with argument:", arg]] }
  match someAsyncOperation arg elapsed with
  | (.fulfilled result, uncaught) =>
    (s1, .fulfilled (.obj [("success", .bool true), ("data", result), ("requestedWith", arg)]),
      uncaught)
  | (.rejected reason, uncaught) => (s1, .rejected reason, uncaught)
  | (.pending, uncaught) => (s1, .pending, uncaught)

/-- Electron's `BrowserWindow` (a library, not part of this repository): once
the window is closed its native object is destroyed, and using it, here
reading `webContents` and calling `send`, throws the TypeError
"Object has been destroyed". On a live window the message is queued for the
renderer and the call returns undefined. -/
def webContentsSend (s : HostState) (channel : String) (data : JSValue) :
    HostState × Completion :=
  if s.windowDestroyed then (s, .error ⟨"TypeError", "Object has been destroyed"⟩)
  else ({ s with pushed := s.pushed ++ [⟨channel, data⟩] }, .ok .undefined)

/-- The timer callback of `createWindow`, main.js lines 59-65; `now` is the
value of `Date.now()`. -/
def createWindowTimer (s : HostState) (now : JSValue) : HostState × Completion :=
  webContentsSend s "from-main"
    (.obj [("message", .str "Hello from main process!"), ("timestamp", now)])

/-! ## The invariant of the running bridge -/

/-- What holds of every world the renderer and the transport can bring about. -/
structure Inv (w : World) : Prop where
  sendList : w.bridge.validSendChannels = ["to-main"]
  receiveList : w.bridge.validReceiveChannels = ["from-main"]
  invokeList : w.bridge.validInvokeChannels = ["get-data"]
  fresh : ∀ l ∈ w.bridge.listeners, l.subscription < w.bridge.nextClosure
  distinct : (w.bridge.listeners.map (fun l => l.subscription)).Nodup
  ordered : (w.bridge.listeners.map (fun l => l.subscription)).Pairwise (fun a b => a < b)
  onReceive : ∀ l ∈ w.bridge.listeners, l.channel = "from-main"
  handed : ∀ ch id, Disposer.remove ch id ∈ w.disposers →
    id < w.bridge.nextClosure ∧
      ∀ l ∈ w.bridge.listeners, l.subscription = id → l.channel = ch

/-! ## The registry -/

theorem eraseP_eq_filter_of_unique {α : Type} (p : α → Bool) :
    ∀ ls : List α, ls.Pairwise (fun a b => p a = true → p b = true → False) →
      ls.eraseP p = ls.filter (fun a => !p a)
  | [], _ => rfl
  | a :: rest, h => by
    rw [List.pairwise_cons] at h
    cases hp : p a with
    | true =>
      have hrest : ∀ b ∈ rest, (!p b) = true := by
        intro b hb
        cases hb2 : p b with
        | true => exact (h.1 b hb hp hb2).elim
        | false => rfl
      simp [List.eraseP_cons, List.filter_cons, hp, List.filter_eq_self.mpr hrest]
    | false =>
      simp [List.eraseP_cons, List.filter_cons, hp, eraseP_eq_filter_of_unique p rest h.2]

/-- On a registry whose closures are pairwise distinct, removing a closure on
the channel it was registered on filters it out and keeps everything else. -/
theorem removeListener_eq_filter (ls : List Listener) (channel : String) (id : Nat)
    (hnd : (ls.map (fun l => l.subscription)).Nodup)
    (hch : ∀ l ∈ ls, l.subscription = id → l.channel = channel) :
    removeListener ls channel id = ls.filter (fun l => l.subscription != id) := by
  unfold removeListener
  have hpw : ls.reverse.Pairwise (fun a b =>
      (a.channel == channel && a.subscription == id) = true →
      (b.channel == channel && b.subscription == id) = true → False) := by
    rw [List.pairwise_reverse]
    rw [List.Nodup, List.pairwise_map] at hnd
    refine hnd.imp ?_
    intro a b hab hb ha
    simp only [Bool.and_eq_true, beq_iff_eq] at ha hb
    exact hab (ha.2.trans hb.2.symm)
  rw [eraseP_eq_filter_of_unique _ _ hpw, List.filter_reverse, List.reverse_reverse]
  apply List.filter_congr
  intro l hl
  by_cases h : l.subscription = id
  · simp [h, hch l hl h]
  · have h2 : (l.subscription == id) = false := by simpa using h
    simp [h2, bne]

/-- Removing a closure that is not registered changes nothing. -/
theorem removeListener_absent (ls : List Listener) (channel : String) (id : Nat)
    (h : ∀ l ∈ ls, l.subscription ≠ id) :
    removeListener ls channel id = ls := by
  unfold removeListener
  rw [List.eraseP_of_forall_not, List.reverse_reverse]
  intro l hl
  have := h l (List.mem_reverse.mp hl)
  simp [this]

/-! ## The invariant is established and preserved -/

theorem inv_start : Inv World.start where
  sendList := rfl
  receiveList := rfl
  invokeList := rfl
  fresh := by intro l hl; cases hl
  distinct := List.nodup_nil
  ordered := List.Pairwise.nil
  onReceive := by intro l hl; cases hl
  handed := by intro ch id h; cases h

theorem send_frame (t : Transport) (s : BridgeState) (ch : String) (data : JSValue) :
    (send t s ch data).1.validSendChannels = s.validSendChannels ∧
    (send t s ch data).1.validReceiveChannels = s.validReceiveChannels ∧
    (send t s ch data).1.validInvokeChannels = s.validInvokeChannels ∧
    (send t s ch data).1.listeners = s.listeners ∧
    (send t s ch data).1.nextClosure = s.nextClosure ∧
    (send t s ch data).1.called = s.called := by
  unfold send
  split
  · split <;> simp
  · simp

theorem invoke_frame (t : Transport) (s : BridgeState) (ch : String) (data : JSValue) :
    (invoke t s ch data).1.validSendChannels = s.validSendChannels ∧
    (invoke t s ch data).1.validReceiveChannels = s.validReceiveChannels ∧
    (invoke t s ch data).1.validInvokeChannels = s.validInvokeChannels ∧
    (invoke t s ch data).1.listeners = s.listeners ∧
    (invoke t s ch data).1.nextClosure = s.nextClosure ∧
    (invoke t s ch data).1.called = s.called := by
  unfold invoke
  split <;> simp

theorem inv_of_frame {w : World} {b : BridgeState} (h : Inv w)
    (h1 : b.validSendChannels = w.bridge.validSendChannels)
    (h2 : b.validReceiveChannels = w.bridge.validReceiveChannels)
    (h3 : b.validInvokeChannels = w.bridge.validInvokeChannels)
    (h4 : b.listeners = w.bridge.listeners)
    (h5 : b.nextClosure = w.bridge.nextClosure) :
    Inv { w with bridge := b } where
  sendList := by simpa [h1] using h.sendList
  receiveList := by simpa [h2] using h.receiveList
  invokeList := by simpa [h3] using h.invokeList
  fresh := by simpa [h4, h5] using h.fresh
  distinct := by simpa [h4] using h.distinct
  ordered := by simpa [h4] using h.ordered
  onReceive := by simpa [h4] using h.onReceive
  handed := by simpa [h4, h5] using h.handed

theorem receive_accept (s : BridgeState) (ch : String) (cb : Nat)
    (h : ch ∈ s.validReceiveChannels) :
    receive s ch cb =
      ({ s with
          listeners := s.listeners ++ [⟨ch, s.nextClosure, cb⟩]
          nextClosure := s.nextClosure + 1 },
        .remove ch s.nextClosure) := by
  simp [receive, h]

theorem receive_refuse (s : BridgeState) (ch : String) (cb : Nat)
    (h : ch ∉ s.validReceiveChannels) :
    receive s ch cb =
      ({ s with errorLog := s.errorLog ++ ["Unauthorized receive attempt on channel: " ++ ch] },
        .noop) := by
  simp [receive, h]

theorem inv_receive {w : World} (h : Inv w) (ch : String) (cb : Nat) :
    Inv ⟨(receive w.bridge ch cb).1, w.disposers ++ [(receive w.bridge ch cb).2]⟩ := by
  by_cases hc : ch ∈ w.bridge.validReceiveChannels
  · rw [receive_accept _ _ _ hc]
    have hch : ch = "from-main" := by simpa [h.receiveList] using hc
    refine ⟨h.sendList, h.receiveList, h.invokeList, ?_, ?_, ?_, ?_, ?_⟩
    · intro l hl
      simp only [List.mem_append, List.mem_singleton] at hl
      rcases hl with hl | hl
      · exact Nat.lt_succ_of_lt (h.fresh l hl)
      · subst hl; exact Nat.lt_succ_self _
    · simp only [List.map_append, List.map_cons, List.map_nil]
      rw [List.nodup_append]
      refine ⟨h.distinct, List.nodup_singleton _, ?_⟩
      intro a ha hb
      simp only [List.mem_singleton] at hb
      rw [List.mem_map] at ha
      obtain ⟨l, hl, rfl⟩ := ha
      exact absurd hb (Nat.ne_of_lt (h.fresh l hl))
    · simp only [List.map_append, List.map_cons, List.map_nil]
      rw [List.pairwise_append]
      refine ⟨h.ordered, List.pairwise_singleton _ _, ?_⟩
      intro a ha b hb
      simp only [List.mem_singleton] at hb
      rw [List.mem_map] at ha
      obtain ⟨l, hl, rfl⟩ := ha
      rw [hb]
      exact h.fresh l hl
    · intro l hl
      simp only [List.mem_append, List.mem_singleton] at hl
      rcases hl with hl | hl
      · exact h.onReceive l hl
      · subst hl; exact hch
    · intro c id hd
      simp only [List.mem_append, List.mem_singleton] at hd
      rcases hd with hd | hd
      · obtain ⟨h1, h2⟩ := h.handed c id hd
        refine ⟨Nat.lt_succ_of_lt h1, ?_⟩
        intro l hl hid
        simp only [List.mem_append, List.mem_singleton] at hl
        rcases hl with hl | hl
        · exact h2 l hl hid
        · subst hl
          exact absurd hid (Nat.ne_of_gt h1)
      · injection hd with e1 e2
        subst e1 e2
        refine ⟨Nat.lt_succ_self _, ?_⟩
        intro l hl hid
        simp only [List.mem_append, List.mem_singleton] at hl
        rcases hl with hl | hl
        · exact absurd hid (Nat.ne_of_lt (h.fresh l hl))
        · subst hl; rfl
  · rw [receive_refuse _ _ _ hc]
    refine ⟨h.sendList, h.receiveList, h.invokeList, h.fresh, h.distinct, h.ordered,
      h.onReceive, ?_⟩
    intro c id hd
    simp only [List.mem_append, List.mem_singleton] at hd
    rcases hd with hd | hd
    · exact h.handed c id hd
    · cases hd

/-- On a world satisfying the invariant, a handed-out disposer filters its own
closure out of the registry. -/
theorem call_listeners {w : World} (h : Inv w) (ch : String) (id : Nat)
    (hd : Disposer.remove ch id ∈ w.disposers) :
    ((Disposer.remove ch id).call w.bridge).listeners =
      w.bridge.listeners.filter (fun l => l.subscription != id) := by
  simp only [Disposer.call]
  exact removeListener_eq_filter _ _ _ h.distinct (h.handed ch id hd).2

theorem inv_call {w : World} (h : Inv w) (d : Disposer) (hd : d ∈ w.disposers) :
    Inv { w with bridge := d.call w.bridge } := by
  cases d with
  | noop => exact h
  | remove ch id =>
    have hl := call_listeners h ch id hd
    refine ⟨h.sendList, h.receiveList, h.invokeList, ?_, ?_, ?_, ?_, ?_⟩
    · intro l hm
      rw [hl] at hm
      exact h.fresh l (List.mem_filter.mp hm).1
    · rw [hl]
      exact (h.distinct).sublist ((List.filter_sublist _).map _)
    · rw [hl]
      exact (h.ordered).sublist ((List.filter_sublist _).map _)
    · intro l hm
      rw [hl] at hm
      exact h.onReceive l (List.mem_filter.mp hm).1
    · intro c i hc
      obtain ⟨h1, h2⟩ := h.handed c i hc
      refine ⟨h1, ?_⟩
      intro l hm
      rw [hl] at hm
      exact h2 l (List.mem_filter.mp hm).1

theorem inv_step (t : Transport) {w : World} (h : Inv w) (op : Op) : Inv (step t w op) := by
  cases op with
  | send ch data =>
    obtain ⟨h1, h2, h3, h4, h5, _⟩ := send_frame t w.bridge ch data
    exact inv_of_frame h h1 h2 h3 h4 h5
  | invoke ch data =>
    obtain ⟨h1, h2, h3, h4, h5, _⟩ := invoke_frame t w.bridge ch data
    exact inv_of_frame h h1 h2 h3 h4 h5
  | receive ch cb => exact inv_receive h ch cb
  | dispose k =>
    simp only [step]
    cases hk : w.disposers[k]? with
    | none => exact h
    | some d => exact inv_call h d (List.getElem?_mem hk)
  | deliver ch e payload outcome => exact inv_of_frame h rfl rfl rfl rfl rfl

theorem inv_run_from (t : Transport) (ops : List Op) :
    ∀ w : World, Inv w → Inv (run t ops w) := by
  induction ops with
  | nil => intro w h; exact h
  | cons op rest ih =>
    intro w h
    exact ih (step t w op) (inv_step t h op)

theorem inv_run (t : Transport) (ops : List Op) : Inv (run t ops World.start) :=
  inv_run_from t ops World.start inv_start

/-! ## Closures are never registered twice -/

theorem mem_removeListener {ls : List Listener} {ch : String} {id : Nat} {l : Listener}
    (h : l ∈ removeListener ls ch id) : l ∈ ls := by
  unfold removeListener at h
  exact List.mem_reverse.mp (List.mem_of_mem_eraseP (List.mem_reverse.mp h))

theorem call_frame (d : Disposer) (s : BridgeState) :
    (d.call s).nextClosure = s.nextClosure ∧ (d.call s).called = s.called ∧
    ∀ l ∈ (d.call s).listeners, l ∈ s.listeners := by
  cases d with
  | noop => exact ⟨rfl, rfl, fun _ h => h⟩
  | remove ch id => exact ⟨rfl, rfl, fun _ h => mem_removeListener h⟩

theorem receive_next (s : BridgeState) (ch : String) (cb : Nat) :
    s.nextClosure ≤ (receive s ch cb).1.nextClosure ∧
    (receive s ch cb).1.called = s.called ∧
    ∀ l ∈ (receive s ch cb).1.listeners, l.subscription < s.nextClosure → l ∈ s.listeners := by
  by_cases hc : ch ∈ s.validReceiveChannels
  · rw [receive_accept _ _ _ hc]
    refine ⟨Nat.le_succ _, rfl, ?_⟩
    intro l hl hlt
    simp only [List.mem_append, List.mem_singleton] at hl
    rcases hl with hl | hl
    · exact hl
    · subst hl; exact absurd hlt (Nat.lt_irrefl _)
  · rw [receive_refuse _ _ _ hc]
    exact ⟨Nat.le_refl _, rfl, fun _ h _ => h⟩

/-- One operation never lowers the allocation counter, and every closure it
leaves registered that was allocated before it was registered before it. -/
theorem step_old (t : Transport) (w : World) (op : Op) :
    w.bridge.nextClosure ≤ (step t w op).bridge.nextClosure ∧
    ∀ l ∈ (step t w op).bridge.listeners,
      l.subscription < w.bridge.nextClosure → l ∈ w.bridge.listeners := by
  cases op with
  | send ch data =>
    obtain ⟨_, _, _, h4, h5, _⟩ := send_frame t w.bridge ch data
    simp only [step, h4, h5]
    exact ⟨Nat.le_refl _, fun _ h _ => h⟩
  | invoke ch data =>
    obtain ⟨_, _, _, h4, h5, _⟩ := invoke_frame t w.bridge ch data
    simp only [step, h4, h5]
    exact ⟨Nat.le_refl _, fun _ h _ => h⟩
  | receive ch cb =>
    obtain ⟨h1, _, h3⟩ := receive_next w.bridge ch cb
    exact ⟨h1, h3⟩
  | dispose k =>
    simp only [step]
    cases hk : w.disposers[k]? with
    | none => exact ⟨Nat.le_refl _, fun _ h _ => h⟩
    | some d =>
      obtain ⟨h1, _, h3⟩ := call_frame d w.bridge
      exact ⟨Nat.le_of_eq h1.symm, fun l h _ => h3 l h⟩
  | deliver ch e payload outcome => exact ⟨Nat.le_refl _, fun _ h _ => h⟩

/-- The emitter calls nobody it has not lined up. -/
theorem mem_of_mem_callsUntilThrow (outcome : CallbackOutcome) (i : Invocation) :
    ∀ calls : List Invocation, i ∈ callsUntilThrow outcome calls → i ∈ calls
  | [], h => by cases h
  | x :: rest, h => by
    unfold callsUntilThrow at h
    cases ho : outcome x with
    | none =>
      rw [ho] at h
      rcases List.mem_cons.mp h with h | h
      · exact h ▸ List.mem_cons_self _ _
      · exact List.mem_cons_of_mem _ (mem_of_mem_callsUntilThrow outcome i rest h)
    | some e =>
      rw [ho] at h
      exact (List.mem_singleton.mp h) ▸ List.mem_cons_self _ _

/-- One operation adds to the trace only calls made by registered closures. -/
theorem step_called (t : Transport) (w : World) (op : Op) (id : Nat)
    (habs : ∀ l ∈ w.bridge.listeners, l.subscription ≠ id) :
    invocationsOf id (step t w op).bridge = invocationsOf id w.bridge := by
  cases op with
  | send ch data =>
    obtain ⟨_, _, _, _, _, h6⟩ := send_frame t w.bridge ch data
    simp only [step, invocationsOf, h6]
  | invoke ch data =>
    obtain ⟨_, _, _, _, _, h6⟩ := invoke_frame t w.bridge ch data
    simp only [step, invocationsOf, h6]
  | receive ch cb =>
    obtain ⟨_, h2, _⟩ := receive_next w.bridge ch cb
    simp only [step, invocationsOf, h2]
  | dispose k =>
    simp only [step]
    cases hk : w.disposers[k]? with
    | none => rfl
    | some d =>
      obtain ⟨_, h2, _⟩ := call_frame d w.bridge
      simp only [invocationsOf, h2]
  | deliver ch e payload outcome =>
    simp only [step, deliver, invocationsOf, emitted, List.filter_append,
      List.append_right_eq_self, List.filter_eq_nil_iff]
    intro i hi
    have hd := mem_of_mem_callsUntilThrow outcome i _ hi
    simp only [dispatched, List.mem_map, List.mem_filter] at hd
    obtain ⟨l, ⟨hl, _⟩, rfl⟩ := hd
    simpa [subscriptionCall] using habs l hl

/-- A closure that was allocated and is not registered stays unregistered
and makes no further call, whatever happens next. -/
theorem quiet_run (t : Transport) (id : Nat) (ops : List Op) :
    ∀ w : World, id < w.bridge.nextClosure →
      (∀ l ∈ w.bridge.listeners, l.subscription ≠ id) →
      (∀ l ∈ (run t ops w).bridge.listeners, l.subscription ≠ id) ∧
        invocationsOf id (run t ops w).bridge = invocationsOf id w.bridge := by
  induction ops with
  | nil => intro w _ habs; exact ⟨habs, rfl⟩
  | cons op rest ih =>
    intro w hlt habs
    obtain ⟨hmono, hold⟩ := step_old t w op
    have habs2 : ∀ l ∈ (step t w op).bridge.listeners, l.subscription ≠ id := by
      intro l hl hid
      exact habs l (hold l hl (hid ▸ hlt)) hid
    obtain ⟨h1, h2⟩ := ih (step t w op) (Nat.lt_of_lt_of_le hlt hmono) habs2
    exact ⟨h1, h2.trans (step_called t w op id habs)⟩

/-- Every closure allocated before a run and registered after it was
registered before it. -/
theorem run_old (t : Transport) (ops : List Op) :
    ∀ w : World, ∀ l ∈ (run t ops w).bridge.listeners,
      l.subscription < w.bridge.nextClosure → l ∈ w.bridge.listeners := by
  induction ops with
  | nil => intro w l hl _; exact hl
  | cons op rest ih =>
    intro w l hl hlt
    obtain ⟨hmono, hold⟩ := step_old t w op
    exact hold l (ih (step t w op) l hl (Nat.lt_of_lt_of_le hlt hmono)) hlt

/-! ## The gate refuses unlisted channels -/

/-- C1: in every state the bridge can reach, for every channel name other than
`to-main` and every payload, `send` records no call to the transport's send
(the spy list is unchanged; only a diagnostic line is added to the error
console) and completes normally, returning undefined, whatever the transport
would have done. -/
theorem send_unlisted_not_forwarded (t : Transport) (ops : List Op) (channel : String)
    (data : JSValue) (h : channel ≠ "to-main") :
    (send t (run t ops World.start).bridge channel data).1.sent
        = (run t ops World.start).bridge.sent ∧
      (send t (run t ops World.start).bridge channel data).2 = .ok .undefined ∧
      (send t (run t ops World.start).bridge channel data).1 =
        { (run t ops World.start).bridge with
          errorLog := (run t ops World.start).bridge.errorLog ++
            ["Unauthorized send attempt to channel: " ++ channel] } := by
  have hw := (inv_run t ops).sendList
  have hn : channel ∉ (run t ops World.start).bridge.validSendChannels := by
    simpa [hw] using h
  simp [send, hn]

theorem send_unlisted_not_forwarded_witness :
    "evil" ≠ "to-main" ∧
      ((send hostileTransport (run hostileTransport [] World.start).bridge "evil"
          (.str "x")).1.sent
        = (run hostileTransport [] World.start).bridge.sent ∧
      (send hostileTransport (run hostileTransport [] World.start).bridge "evil"
          (.str "x")).2 = .ok .undefined ∧
      (send hostileTransport (run hostileTransport [] World.start).bridge "evil" (.str "x")).1 =
        { (run hostileTransport [] World.start).bridge with
          errorLog := (run hostileTransport [] World.start).bridge.errorLog ++
            ["Unauthorized send attempt to channel: " ++ "evil"] }) :=
  ⟨by decide, send_unlisted_not_forwarded hostileTransport [] "evil" (.str "x") (by decide)⟩

/-- C2: in every state the bridge can reach, for every channel name other than
`get-data` and every payload, `invoke` records no call to the transport's
invoke and returns a promise that is already rejected with an Error whose
message is "Unauthorized invoke to: " followed by the channel name; the promise
is therefore neither pending nor fulfilled. -/
theorem invoke_unlisted_rejected (t : Transport) (ops : List Op) (channel : String)
    (data : JSValue) (h : channel ≠ "get-data") :
    (invoke t (run t ops World.start).bridge channel data).1.invoked
        = (run t ops World.start).bridge.invoked ∧
      (invoke t (run t ops World.start).bridge channel data).2 =
        .rejected ⟨"Error", "Unauthorized invoke to: " ++ channel⟩ ∧
      (invoke t (run t ops World.start).bridge channel data).2 ≠ .pending ∧
      ∀ v, (invoke t (run t ops World.start).bridge channel data).2 ≠ .fulfilled v := by
  have hw := (inv_run t ops).invokeList
  have hn : channel ∉ (run t ops World.start).bridge.validInvokeChannels := by
    simpa [hw] using h
  simp [invoke, hn]

theorem invoke_unlisted_rejected_witness :
    "to-main" ≠ "get-data" ∧
      ((invoke hostileTransport (run hostileTransport [] World.start).bridge "to-main"
          .null).1.invoked
        = (run hostileTransport [] World.start).bridge.invoked ∧
      (invoke hostileTransport (run hostileTransport [] World.start).bridge "to-main" .null).2 =
        .rejected ⟨"Error", "Unauthorized invoke to: " ++ "to-main"⟩ ∧
      (invoke hostileTransport (run hostileTransport [] World.start).bridge "to-main" .null).2
        ≠ .pending ∧
      ∀ v, (invoke hostileTransport (run hostileTransport [] World.start).bridge "to-main"
        .null).2 ≠ .fulfilled v) :=
  ⟨by decide, invoke_unlisted_rejected hostileTransport [] "to-main" .null (by decide)⟩

/-- C3: in every state the bridge can reach, for every channel name other than
`from-main` and every callback, `receive` leaves the listener registry as it
was and returns the disposer that does nothing (calling it returns any bridge
state unchanged); and whatever operations follow and whatever the callbacks
do when called, a delivery on that channel name calls no callback at all. -/
theorem receive_unlisted_registers_nothing (t : Transport) (ops : List Op) (channel : String)
    (callback : Nat) (h : channel ≠ "from-main") :
    (receive (run t ops World.start).bridge channel callback).1.listeners
        = (run t ops World.start).bridge.listeners ∧
      (receive (run t ops World.start).bridge channel callback).2 = .noop ∧
      (∀ s, (receive (run t ops World.start).bridge channel callback).2.call s = s) ∧
      ∀ (later : List Op) (args : List JSArg) (outcome : CallbackOutcome),
        emitted (run t later (step t (run t ops World.start) (.receive channel callback))).bridge
          channel args outcome = [] := by
  have hinv := inv_run t ops
  have hn : channel ∉ (run t ops World.start).bridge.validReceiveChannels := by
    simpa [hinv.receiveList] using h
  rw [receive_refuse _ _ _ hn]
  refine ⟨rfl, rfl, fun s => rfl, ?_⟩
  intro later args outcome
  have hfut := inv_run_from t later _ (inv_step t hinv (.receive channel callback))
  have hnone : dispatched (run t later (step t (run t ops World.start)
      (.receive channel callback))).bridge channel args = [] := by
    simp only [dispatched, List.map_eq_nil_iff, List.filter_eq_nil_iff]
    intro l hl
    have := hfut.onReceive l hl
    simp [this, Ne.symm h]
  simp only [emitted, hnone, callsUntilThrow]

theorem receive_unlisted_registers_nothing_witness :
    "to-main" ≠ "from-main" ∧
      ((receive (run hostileTransport [] World.start).bridge "to-main" 7).1.listeners
        = (run hostileTransport [] World.start).bridge.listeners ∧
      (receive (run hostileTransport [] World.start).bridge "to-main" 7).2 = .noop ∧
      (∀ s, (receive (run hostileTransport [] World.start).bridge "to-main" 7).2.call s = s) ∧
      ∀ (later : List Op) (args : List JSArg) (outcome : CallbackOutcome),
        emitted (run hostileTransport later
          (step hostileTransport (run hostileTransport [] World.start)
            (.receive "to-main" 7))).bridge "to-main" args outcome = []) :=
  ⟨by decide, receive_unlisted_registers_nothing hostileTransport [] "to-main" 7 (by decide)⟩

/-! ## The whitelists never change -/

/-- C8: after any sequence of calls to send, invoke, receive and handed-out
disposers (and of deliveries by the transport), with any arguments, the three
lists are still the ones preload.js starts with; send reaches the transport
exactly for `to-main`, invoke exactly for `get-data`, receive registers a
listener exactly for `from-main`; and the three lists are pairwise disjoint. -/
theorem whitelists_invariant (t : Transport) (ops : List Op) :
    (run t ops World.start).bridge.validSendChannels = ["to-main"] ∧
    (run t ops World.start).bridge.validInvokeChannels = ["get-data"] ∧
    (run t ops World.start).bridge.validReceiveChannels = ["from-main"] ∧
    (∀ channel data,
      (send t (run t ops World.start).bridge channel data).1.sent.length
        = (run t ops World.start).bridge.sent.length + 1 ↔ channel = "to-main") ∧
    (∀ channel data,
      (invoke t (run t ops World.start).bridge channel data).1.invoked.length
        = (run t ops World.start).bridge.invoked.length + 1 ↔ channel = "get-data") ∧
    (∀ channel callback,
      (receive (run t ops World.start).bridge channel callback).1.listeners.length
        = (run t ops World.start).bridge.listeners.length + 1 ↔ channel = "from-main") ∧
    List.Disjoint (run t ops World.start).bridge.validSendChannels
      (run t ops World.start).bridge.validInvokeChannels ∧
    List.Disjoint (run t ops World.start).bridge.validSendChannels
      (run t ops World.start).bridge.validReceiveChannels ∧
    List.Disjoint (run t ops World.start).bridge.validInvokeChannels
      (run t ops World.start).bridge.validReceiveChannels := by
  have hinv := inv_run t ops
  refine ⟨hinv.sendList, hinv.invokeList, hinv.receiveList, ?_, ?_, ?_, ?_, ?_, ?_⟩
  · intro channel data
    by_cases hc : channel = "to-main"
    · have hm : channel ∈ (run t ops World.start).bridge.validSendChannels := by
        simp [hinv.sendList, hc]
      subst hc
      simp only [send, hm, if_true, iff_true]
      cases t.sendThrows "to-main" data <;> simp
    · have hm : channel ∉ (run t ops World.start).bridge.validSendChannels := by
        simpa [hinv.sendList] using hc
      simp [send, hm, hc]
  · intro channel data
    by_cases hc : channel = "get-data"
    · have hm : channel ∈ (run t ops World.start).bridge.validInvokeChannels := by
        simp [hinv.invokeList, hc]
      subst hc
      simp [invoke, hm]
    · have hm : channel ∉ (run t ops World.start).bridge.validInvokeChannels := by
        simpa [hinv.invokeList] using hc
      simp [invoke, hm, hc]
  · intro channel callback
    by_cases hc : channel = "from-main"
    · have hm : channel ∈ (run t ops World.start).bridge.validReceiveChannels := by
        simp [hinv.receiveList, hc]
      subst hc
      simp [receive_accept _ _ _ hm]
    · have hm : channel ∉ (run t ops World.start).bridge.validReceiveChannels := by
        simpa [hinv.receiveList] using hc
      simp [receive_refuse _ _ _ hm, hc]
  · rw [hinv.sendList, hinv.invokeList]; simp [List.Disjoint]
  · rw [hinv.sendList, hinv.receiveList]; simp [List.Disjoint]
  · rw [hinv.invokeList, hinv.receiveList]; simp [List.Disjoint]

/-! ## Subscriptions -/

theorem no_calls_of_absent (ls : List Listener) (p : Listener → Bool) (args : List JSArg)
    (outcome : CallbackOutcome) (id : Nat) (h : ∀ x ∈ ls, x.subscription ≠ id) :
    (callsUntilThrow outcome ((ls.filter p).map (fun x => subscriptionCall x args))).filter
      (fun i => i.subscription == id) = [] := by
  simp only [List.filter_eq_nil_iff]
  intro i hi
  have hd := mem_of_mem_callsUntilThrow outcome i _ hi
  simp only [List.mem_map, List.mem_filter] at hd
  obtain ⟨x, ⟨hx, _⟩, rfl⟩ := hd
  simpa [subscriptionCall] using h x hx

/-- In a registry kept in registration order, one emit on the channel of a
registered closure makes that closure call its callback exactly once, provided
no closure registered before it throws. -/
theorem calls_of_registered (outcome : CallbackOutcome) (args : List JSArg) (l : Listener) :
    ∀ ls : List Listener, (ls.map (fun x => x.subscription)).Pairwise (fun a b => a < b) →
      l ∈ ls →
      (∀ x ∈ ls, x.subscription < l.subscription →
        outcome (subscriptionCall x args) = none) →
      (callsUntilThrow outcome ((ls.filter (fun x => x.channel == l.channel)).map
        (fun x => subscriptionCall x args))).filter
          (fun i => i.subscription == l.subscription) = [subscriptionCall l args]
  | [], _, hl, _ => by cases hl
  | a :: rest, hord, hl, hquiet => by
    rw [List.map_cons, List.pairwise_cons] at hord
    have hlt : ∀ x ∈ rest, a.subscription < x.subscription := fun x hx =>
      hord.1 _ (List.mem_map.mpr ⟨x, hx, rfl⟩)
    rcases List.mem_cons.mp hl with h | h
    · subst h
      have habs : ∀ x ∈ rest, x.subscription ≠ l.subscription := fun x hx =>
        Nat.ne_of_gt (hlt x hx)
      have hrest := no_calls_of_absent rest (fun x => x.channel == l.channel) args outcome _ habs
      have hself : (subscriptionCall l args).subscription = l.subscription := rfl
      simp only [List.filter_cons, beq_self_eq_true, if_true, List.map_cons, callsUntilThrow]
      cases outcome (subscriptionCall l args) with
      | none => simp [List.filter_cons, hself, hrest]
      | some e => simp [List.filter_cons, hself]
    · have hal : a.subscription < l.subscription := hlt l h
      have hne : ¬ (subscriptionCall a args).subscription = l.subscription :=
        Nat.ne_of_lt hal
      have hnone := hquiet a (List.mem_cons_self _ _) hal
      have ih := calls_of_registered outcome args l rest hord.2 h
        (fun x hx hxl => hquiet x (List.mem_cons_of_mem _ hx) hxl)
      by_cases hc : a.channel = l.channel
      · simp only [List.filter_cons, hc, beq_self_eq_true, if_true, List.map_cons,
          callsUntilThrow, hnone]
        simpa [List.filter_cons, hne] using ih
      · have hc2 : (a.channel == l.channel) = false := by simpa using hc
        simpa [List.filter_cons, hc2] using ih

theorem filter_length_le_one (id : Nat) :
    ∀ ls : List Listener, (ls.map (fun x => x.subscription)).Nodup →
      (ls.filter (fun x => x.subscription == id)).length ≤ 1
  | [], _ => by simp
  | a :: rest, hnd => by
    rw [List.map_cons, List.nodup_cons] at hnd
    by_cases h : a.subscription = id
    · have habs : rest.filter (fun x => x.subscription == id) = [] := by
        simp only [List.filter_eq_nil_iff]
        intro x hx
        have : x.subscription ≠ a.subscription := fun he =>
          hnd.1 (List.mem_map.mpr ⟨x, hx, he⟩)
        simpa [h] using this
      simp [List.filter_cons, h, habs]
    · simpa [List.filter_cons, h] using filter_length_le_one id rest hnd.2

/-- Taking calls out of the line never costs a remaining call its turn. -/
theorem callsUntilThrow_keeps (outcome : CallbackOutcome) (p : Invocation → Bool)
    (i : Invocation) (hp : p i = true) :
    ∀ calls : List Invocation, i ∈ callsUntilThrow outcome calls →
      i ∈ callsUntilThrow outcome (calls.filter p)
  | [], h => by cases h
  | x :: rest, h => by
    unfold callsUntilThrow at h
    cases ho : outcome x with
    | none =>
      rw [ho] at h
      rcases List.mem_cons.mp h with h | h
      · subst h
        simp [List.filter_cons, hp, callsUntilThrow, ho]
      · have ih := callsUntilThrow_keeps outcome p i hp rest h
        by_cases hx : p x = true
        · simp [List.filter_cons, hx, callsUntilThrow, ho, ih]
        · simpa [List.filter_cons, hx] using ih
    | some e =>
      rw [ho] at h
      have hix : i = x := List.mem_singleton.mp h
      subst hix
      simp [List.filter_cons, hp, callsUntilThrow, ho]

/-- Taking out of the line only calls that return leaves every other call as
it was. -/
theorem callsUntilThrow_filter (outcome : CallbackOutcome) (p : Invocation → Bool) :
    ∀ calls : List Invocation, (∀ i ∈ calls, p i = false → outcome i = none) →
      callsUntilThrow outcome (calls.filter p) = (callsUntilThrow outcome calls).filter p
  | [], _ => rfl
  | x :: rest, h => by
    have ih := callsUntilThrow_filter outcome p rest
      (fun i hi => h i (List.mem_cons_of_mem _ hi))
    by_cases hx : p x = true
    · cases ho : outcome x with
      | none => simp [List.filter_cons, hx, callsUntilThrow, ho, ih]
      | some e => simp [List.filter_cons, hx, callsUntilThrow, ho]
    · have hx2 : p x = false := by simpa using hx
      have ho := h x (List.mem_cons_self _ _) hx2
      simp [List.filter_cons, hx2, callsUntilThrow, ho, ih]

/-- C5 as stated fails: with two live subscriptions on `from-main`, callbacks
1 and 2, and a callback 1 that throws, a delivery on `from-main` ends in the
first call; the second subscription is registered and its callback is not
called at all. -/
theorem later_subscription_starved :
    (⟨"from-main", 1, 2⟩ : Listener) ∈ (run hostileTransport
        [.receive "from-main" 1, .receive "from-main" 2] World.start).bridge.listeners ∧
      invocationsOf 1 (deliver (run hostileTransport
        [.receive "from-main" 1, .receive "from-main" 2] World.start).bridge
        "from-main" ⟨1⟩ [.str "Hello"] (onlyThrows 1)) = [] ∧
      emitThrown (run hostileTransport
        [.receive "from-main" 1, .receive "from-main" 2] World.start).bridge
        "from-main" [.event ⟨1⟩, .data (.str "Hello")] (onlyThrows 1) =
          some ⟨"Error", "callback failed"⟩ := by
  refine ⟨by decide, rfl, rfl⟩

/-- C5, amended: take any reachable state, subscribe `callback` on `from-main`,
and let anything happen after that. As long as the subscription is still
registered, a delivery on `from-main` carrying event object `e` and payload
arguments `payload`, during which no callback of a subscription registered
before this one throws, adds exactly one call to the calls made by this
subscription: a call of `callback` whose argument list is the payload alone,
without the event object. -/
theorem subscription_strips_event (t : Transport) (ops later : List Op) (callback : Nat)
    (e : IpcRendererEvent) (payload : List JSValue) (outcome : CallbackOutcome)
    (hlive : ∃ l ∈ (run t later (step t (run t ops World.start)
        (.receive "from-main" callback))).bridge.listeners,
      l.subscription = (run t ops World.start).bridge.nextClosure)
    (hearlier : ∀ l ∈ (run t later (step t (run t ops World.start)
        (.receive "from-main" callback))).bridge.listeners,
      l.subscription < (run t ops World.start).bridge.nextClosure →
        outcome (subscriptionCall l (.event e :: payload.map .data)) = none) :
    invocationsOf (run t ops World.start).bridge.nextClosure
        (deliver (run t later (step t (run t ops World.start)
          (.receive "from-main" callback))).bridge "from-main" e payload outcome) =
      invocationsOf (run t ops World.start).bridge.nextClosure
          (run t later (step t (run t ops World.start)
            (.receive "from-main" callback))).bridge ++
        [⟨(run t ops World.start).bridge.nextClosure, callback, payload.map .data⟩] := by
  have hinv := inv_run t ops
  have hm : "from-main" ∈ (run t ops World.start).bridge.validReceiveChannels := by
    simp [hinv.receiveList]
  have hstep : (step t (run t ops World.start) (.receive "from-main" callback)).bridge =
      (receive (run t ops World.start).bridge "from-main" callback).1 := rfl
  have hfut := inv_run_from t later _ (inv_step t hinv (.receive "from-main" callback))
  obtain ⟨l, hl, hid⟩ := hlive
  have hold := run_old t later _ l hl
    (by rw [hstep, receive_accept _ _ _ hm, hid]; exact Nat.lt_succ_self _)
  rw [hstep, receive_accept _ _ _ hm] at hold
  simp only [List.mem_append, List.mem_singleton] at hold
  have hl0 : l = ⟨"from-main", (run t ops World.start).bridge.nextClosure, callback⟩ := by
    rcases hold with h | h
    · exact absurd hid (Nat.ne_of_lt (hinv.fresh l h))
    · exact h
  subst hl0
  have hc := calls_of_registered outcome
    (.event e :: payload.map .data) _ _ hfut.ordered hl hearlier
  simp only [invocationsOf, deliver, emitted, dispatched, List.filter_append]
  rw [hc]
  rfl

theorem subscription_strips_event_witness :
    (∃ l ∈ (run hostileTransport [] (step hostileTransport
        (run hostileTransport [.receive "from-main" 1] World.start)
        (.receive "from-main" 2))).bridge.listeners,
      l.subscription =
        (run hostileTransport [.receive "from-main" 1] World.start).bridge.nextClosure) ∧
    (∀ l ∈ (run hostileTransport [] (step hostileTransport
        (run hostileTransport [.receive "from-main" 1] World.start)
        (.receive "from-main" 2))).bridge.listeners,
      l.subscription <
          (run hostileTransport [.receive "from-main" 1] World.start).bridge.nextClosure →
        onlyThrows 2 (subscriptionCall l (.event ⟨1⟩ ::
          [JSValue.obj [("message", .str "Hello"), ("timestamp", .num "3")]].map .data))
          = none) ∧
    invocationsOf (run hostileTransport [.receive "from-main" 1] World.start).bridge.nextClosure
        (deliver (run hostileTransport [] (step hostileTransport
          (run hostileTransport [.receive "from-main" 1] World.start)
          (.receive "from-main" 2))).bridge
          "from-main" ⟨1⟩ [.obj [("message", .str "Hello"), ("timestamp", .num "3")]]
          (onlyThrows 2)) =
      invocationsOf (run hostileTransport [.receive "from-main" 1] World.start).bridge.nextClosure
          (run hostileTransport [] (step hostileTransport
            (run hostileTransport [.receive "from-main" 1] World.start)
            (.receive "from-main" 2))).bridge ++
        [⟨(run hostileTransport [.receive "from-main" 1] World.start).bridge.nextClosure, 2,
          [JSValue.obj [("message", .str "Hello"), ("timestamp", .num "3")]].map .data⟩] :=
  ⟨⟨⟨"from-main", 1, 2⟩, by decide, rfl⟩, by decide,
    subscription_strips_event hostileTransport [.receive "from-main" 1] [] 2 ⟨1⟩
      [.obj [("message", .str "Hello"), ("timestamp", .num "3")]] (onlyThrows 2)
      ⟨⟨"from-main", 1, 2⟩, by decide, rfl⟩ (by decide)⟩

/-- C7: a disposer handed out by a successful `receive` removes the closure
that call registered and nothing else: the registry after the call is the
registry before it without the entries of that closure, of which there is at
most one; every other registered closure, whatever its channel and callback,
is still registered; every later emit lines up the same calls as before
except those of the removed closure; every call of another closure that an
emit made before is still made after; and when the call of the removed closure
does not throw, an emit makes exactly the calls it made before, less that
one. -/
theorem disposer_removes_only_its_subscription (t : Transport) (ops : List Op) (ch : String)
    (id : Nat) (hd : Disposer.remove ch id ∈ (run t ops World.start).disposers) :
    ((Disposer.remove ch id).call (run t ops World.start).bridge).listeners =
        (run t ops World.start).bridge.listeners.filter (fun l => l.subscription != id) ∧
      ((run t ops World.start).bridge.listeners.filter
        (fun l => l.subscription == id)).length ≤ 1 ∧
      (∀ l ∈ (run t ops World.start).bridge.listeners, l.subscription ≠ id →
        l ∈ ((Disposer.remove ch id).call (run t ops World.start).bridge).listeners) ∧
      (∀ c args,
        dispatched ((Disposer.remove ch id).call (run t ops World.start).bridge) c args =
          (dispatched (run t ops World.start).bridge c args).filter
            (fun i => i.subscription != id)) ∧
      (∀ c args outcome, ∀ i ∈ emitted (run t ops World.start).bridge c args outcome,
        i.subscription ≠ id →
          i ∈ emitted ((Disposer.remove ch id).call (run t ops World.start).bridge)
            c args outcome) ∧
      ∀ c args outcome,
        (∀ i ∈ dispatched (run t ops World.start).bridge c args,
          i.subscription = id → outcome i = none) →
        emitted ((Disposer.remove ch id).call (run t ops World.start).bridge) c args outcome =
          (emitted (run t ops World.start).bridge c args outcome).filter
            (fun i => i.subscription != id) := by
  have hinv := inv_run t ops
  have hl := call_listeners hinv ch id hd
  have hdisp : ∀ c args,
      dispatched ((Disposer.remove ch id).call (run t ops World.start).bridge) c args =
        (dispatched (run t ops World.start).bridge c args).filter
          (fun i => i.subscription != id) := by
    intro c args
    simp only [dispatched, hl, List.filter_map, List.filter_filter]
    congr 1
    apply List.filter_congr
    intro x _
    simp [subscriptionCall, Bool.and_comm]
  refine ⟨hl, filter_length_le_one id _ hinv.distinct, ?_, hdisp, ?_, ?_⟩
  · intro l hm hne
    rw [hl, List.mem_filter]
    exact ⟨hm, by simpa using hne⟩
  · intro c args outcome i hi hne
    simp only [emitted, hdisp]
    exact callsUntilThrow_keeps outcome _ i (by simpa using hne) _ hi
  · intro c args outcome hq
    simp only [emitted, hdisp]
    apply callsUntilThrow_filter
    intro i hi hp
    exact hq i hi (by simpa using hp)

theorem disposer_removes_only_its_subscription_witness :
    Disposer.remove "from-main" 0 ∈ (run hostileTransport
        [.receive "from-main" 7, .receive "from-main" 7] World.start).disposers ∧
    (((Disposer.remove "from-main" 0).call (run hostileTransport
          [.receive "from-main" 7, .receive "from-main" 7] World.start).bridge).listeners =
        (run hostileTransport [.receive "from-main" 7, .receive "from-main" 7]
          World.start).bridge.listeners.filter (fun l => l.subscription != 0) ∧
      ((run hostileTransport [.receive "from-main" 7, .receive "from-main" 7]
        World.start).bridge.listeners.filter (fun l => l.subscription == 0)).length ≤ 1 ∧
      (∀ l ∈ (run hostileTransport [.receive "from-main" 7, .receive "from-main" 7]
          World.start).bridge.listeners, l.subscription ≠ 0 →
        l ∈ ((Disposer.remove "from-main" 0).call (run hostileTransport
          [.receive "from-main" 7, .receive "from-main" 7] World.start).bridge).listeners) ∧
      (∀ c args,
        dispatched ((Disposer.remove "from-main" 0).call (run hostileTransport
          [.receive "from-main" 7, .receive "from-main" 7] World.start).bridge) c args =
          (dispatched (run hostileTransport [.receive "from-main" 7, .receive "from-main" 7]
            World.start).bridge c args).filter (fun i => i.subscription != 0)) ∧
      (∀ c args outcome, ∀ i ∈ emitted (run hostileTransport
          [.receive "from-main" 7, .receive "from-main" 7] World.start).bridge c args outcome,
        i.subscription ≠ 0 →
          i ∈ emitted ((Disposer.remove "from-main" 0).call (run hostileTransport
            [.receive "from-main" 7, .receive "from-main" 7] World.start).bridge)
            c args outcome) ∧
      ∀ c args outcome,
        (∀ i ∈ dispatched (run hostileTransport
            [.receive "from-main" 7, .receive "from-main" 7] World.start).bridge c args,
          i.subscription = 0 → outcome i = none) →
        emitted ((Disposer.remove "from-main" 0).call (run hostileTransport
          [.receive "from-main" 7, .receive "from-main" 7] World.start).bridge) c args outcome =
          (emitted (run hostileTransport [.receive "from-main" 7, .receive "from-main" 7]
            World.start).bridge c args outcome).filter (fun i => i.subscription != 0)) :=
  ⟨by decide,
    disposer_removes_only_its_subscription hostileTransport
      [.receive "from-main" 7, .receive "from-main" 7] "from-main" 0 (by decide)⟩

/-- C6: take any disposer handed out by `receive` (on a listed or an unlisted
channel) at any reachable state, call it once, and let anything happen after
that, whatever the callbacks do when called. Calling it again returns the bridge state unchanged (the call is total,
so nothing is thrown); and if the disposer belongs to a subscription, that
subscription is registered at no later point and the calls it has made are
exactly those it had made before the first call. -/
theorem disposer_idempotent (t : Transport) (ops later : List Op) (d : Disposer)
    (hd : d ∈ (run t ops World.start).disposers) :
    d.call (run t later (afterCall d (run t ops World.start))).bridge =
        (run t later (afterCall d (run t ops World.start))).bridge ∧
      ∀ ch id, d = .remove ch id →
        (∀ l ∈ (run t later (afterCall d (run t ops World.start))).bridge.listeners,
          l.subscription ≠ id) ∧
        invocationsOf id (run t later (afterCall d (run t ops World.start))).bridge =
          invocationsOf id (run t ops World.start).bridge := by
  have hinv := inv_run t ops
  cases d with
  | noop =>
    refine ⟨rfl, ?_⟩
    intro ch id h
    cases h
  | remove ch id =>
    have hl := call_listeners hinv ch id hd
    have hlt := (hinv.handed ch id hd).1
    have habs : ∀ l ∈ (afterCall (.remove ch id) (run t ops World.start)).bridge.listeners,
        l.subscription ≠ id := by
      intro l hm
      simp only [afterCall] at hm
      rw [hl, List.mem_filter] at hm
      simpa using hm.2
    obtain ⟨h1, h2⟩ := quiet_run t id later (afterCall (.remove ch id) (run t ops World.start))
      hlt habs
    refine ⟨?_, ?_⟩
    · simp only [Disposer.call]
      rw [removeListener_absent _ _ _ h1]
    · intro c i hci
      injection hci with _ hi
      subst hi
      exact ⟨h1, h2⟩

theorem disposer_idempotent_witness :
    Disposer.remove "from-main" 0 ∈ (run hostileTransport
        [.receive "from-main" 7] World.start).disposers ∧
    ((Disposer.remove "from-main" 0).call (run hostileTransport [.deliver "from-main" ⟨1⟩ [.null] (onlyThrows 7)]
        (afterCall (.remove "from-main" 0)
          (run hostileTransport [.receive "from-main" 7] World.start))).bridge =
        (run hostileTransport [.deliver "from-main" ⟨1⟩ [.null] (onlyThrows 7)]
          (afterCall (.remove "from-main" 0)
            (run hostileTransport [.receive "from-main" 7] World.start))).bridge ∧
      ∀ ch id, Disposer.remove "from-main" 0 = .remove ch id →
        (∀ l ∈ (run hostileTransport [.deliver "from-main" ⟨1⟩ [.null] (onlyThrows 7)]
            (afterCall (.remove "from-main" 0)
              (run hostileTransport [.receive "from-main" 7] World.start))).bridge.listeners,
          l.subscription ≠ id) ∧
        invocationsOf id (run hostileTransport [.deliver "from-main" ⟨1⟩ [.null] (onlyThrows 7)]
            (afterCall (.remove "from-main" 0)
              (run hostileTransport [.receive "from-main" 7] World.start))).bridge =
          invocationsOf id (run hostileTransport [.receive "from-main" 7] World.start).bridge) :=
  ⟨by decide,
    disposer_idempotent hostileTransport [.receive "from-main" 7]
      [.deliver "from-main" ⟨1⟩ [.null] (onlyThrows 7)] (.remove "from-main" 0) (by decide)⟩

/-! ## The host handlers -/

/-- C10: for every payload (and every host state and sender), the listener on
`to-main` completes normally, returning undefined, after writing one line to
the console; it pushes no message towards any renderer and leaves the window
as it was. -/
theorem toMain_listener_safe (s : HostState) (event : IpcMainEvent) (data : JSValue) :
    (toMainListener s event data).2 = .ok .undefined ∧
      (toMainListener s event data).1.pushed = s.pushed ∧
      (toMainListener s event data).1.windowDestroyed = s.windowDestroyed ∧
      (toMainListener s event data).1.consoleLog =
        s.consoleLog ++ [[.str "Received in main process:", data]] :=
  ⟨rfl, rfl, rfl, rfl⟩

/-- C4 as stated fails: for the input `{toString: 1}` the string conversion in
the timer callback throws a TypeError, which is left uncaught in the host, and
the promise of the `get-data` handler stays pending at every later time. -/
theorem getData_pending_forever :
    toJSString (.obj [("toString", .num "1")]) =
        .error ⟨"TypeError", "Cannot convert object to primitive value"⟩ ∧
      (getDataHandler ⟨[], [], false⟩ ⟨0⟩ (.obj [("toString", .num "1")]) 1000).2.2 =
        some ⟨"TypeError", "Cannot convert object to primitive value"⟩ ∧
      ∀ elapsed,
        (getDataHandler ⟨[], [], false⟩ ⟨0⟩ (.obj [("toString", .num "1")]) elapsed).2.1 =
          .pending := by
  have hs : toJSString (.obj [("toString", .num "1")]) =
      .error ⟨"TypeError", "Cannot convert object to primitive value"⟩ := by
    simp [toJSString]
  refine ⟨hs, ?_, ?_⟩
  · simp [getDataHandler, someAsyncOperation, hs]
  · intro elapsed
    by_cases h : elapsed < 1000
    · simp [getDataHandler, someAsyncOperation, h]
    · simp [getDataHandler, someAsyncOperation, h, hs]

/-- C4, amended: for every input X whose conversion to a string succeeds with
text T, once the 1000 ms timer has run the `get-data` handler has resolved to
the object with success = true, data = "Processed: " followed by T, and
requestedWith = X, with no error left uncaught; and for no input and at no
time is the handler promise rejected. -/
theorem getData_resolves_printable (s : HostState) (event : IpcMainEvent) (X : JSValue)
    (text : String) (elapsed : Nat) (hX : toJSString X = .ok text) (ht : 1000 ≤ elapsed) :
    (getDataHandler s event X elapsed).2.1 =
        .fulfilled (.obj [("success", .bool true), ("data", .str ("Processed: " ++ text)),
          ("requestedWith", X)]) ∧
      (getDataHandler s event X elapsed).2.2 = none ∧
      ∀ (Y : JSValue) (time : Nat) (reason : JSError),
        (getDataHandler s event Y time).2.1 ≠ .rejected reason := by
  have h : ¬ elapsed < 1000 := Nat.not_lt.mpr ht
  refine ⟨by simp [getDataHandler, someAsyncOperation, h, hX],
    by simp [getDataHandler, someAsyncOperation, h, hX], ?_⟩
  intro Y time reason
  unfold getDataHandler someAsyncOperation
  by_cases h2 : time < 1000
  · simp [h2]
  · cases hY : toJSString Y <;> simp [h2]

theorem getData_resolves_printable_witness :
    toJSString (.str "foo") = .ok "foo" ∧ 1000 ≤ 1000 ∧
      ((getDataHandler ⟨[], [], false⟩ ⟨0⟩ (.str "foo") 1000).2.1 =
        .fulfilled (.obj [("success", .bool true), ("data", .str ("Processed: " ++ "foo")),
          ("requestedWith", .str "foo")]) ∧
      (getDataHandler ⟨[], [], false⟩ ⟨0⟩ (.str "foo") 1000).2.2 = none ∧
      ∀ (Y : JSValue) (time : Nat) (reason : JSError),
        (getDataHandler ⟨[], [], false⟩ ⟨0⟩ Y time).2.1 ≠ .rejected reason) :=
  ⟨by simp [toJSString], by decide,
    getData_resolves_printable ⟨[], [], false⟩ ⟨0⟩ (.str "foo") "foo" 1000
      (by simp [toJSString]) (by decide)⟩

/-- C9, the code at the failing input: when the window has been closed before
the timer fires, the timer callback of `createWindow` does not return; the
TypeError thrown by the destroyed window propagates out of it uncaught. The
callback has no guard: on every host state whose window is destroyed it
completes with that error. -/
theorem broadcast_after_close_throws :
    (createWindowTimer ⟨[], [], true⟩ (.num "1700000000000")).2 =
        .error ⟨"TypeError", "Object has been destroyed"⟩ ∧
      ∀ (s : HostState) (now : JSValue), s.windowDestroyed = true →
        (createWindowTimer s now).2 = .error ⟨"TypeError", "Object has been destroyed"⟩ := by
  refine ⟨rfl, ?_⟩
  intro s now h
  simp [createWindowTimer, webContentsSend, h]

end IpcTemplate
